import Mathlib

/-!
Shallow embedding of the trimora video-trimmer core (C++ sources under src/)
and proofs about its validation, segment, progress-parsing and batch logic.

Conventions:
* C++ `std::string` values are Lean `String` (a wrapper around `List Char`).
* C++ `double` arithmetic is modelled over `ℚ` (exact rational arithmetic);
  all quantities involved are exactly representable decimals.
* Fallible conversions return `Option`.
-/

namespace Trimora

/-! ## Validator (src/validator.cpp) -/

/-- The `ValidationError` enum from validator.hpp. -/
inductive ValidationError where
  | None
  | FileNotFound
  | FileNotReadable
  | InvalidFormat
  | InvalidTimestamp
  | StartTimeAfterEndTime
  | OutputNotWritable
  | InsufficientDiskSpace
  | PathContainsDangerousChars
  deriving DecidableEq, Repr

/-- The `ValidationResult` struct from validator.hpp. -/
structure ValidationResult where
  is_valid : Bool
  error : ValidationError
  error_message : String
  deriving DecidableEq, Repr

/-- The set `Validator::dangerous_chars_` from validator.cpp line 10. -/
def dangerous_chars_ : List Char := [';', '&', '|', '$', '`', '\n', '\r']

/-- Numeric value of a decimal digit character. -/
def digitVal (c : Char) : Nat := c.toNat - '0'.toNat

/-- Value of a digit string, most significant digit first
(as computed by `std::stoi` on a digit-only match group). -/
def digitsVal (l : List Char) : Nat := l.foldl (fun acc c => 10 * acc + digitVal c) 0

/-- Matcher for the anchored regex `^(\d{2}):(\d{2}):(\d{2})\.(\d{3})$` used by
`Validator::validate_timestamp` and `Validator::timestamp_to_seconds`;
returns the four captured groups as numbers (hours, minutes, seconds, milliseconds). -/
def timeMatch (l : List Char) : Option (Nat × Nat × Nat × Nat) :=
  match l with
  | [h1, h2, c1, m1, m2, c2, s1, s2, c3, f1, f2, f3] =>
    if c1 = ':' ∧ c2 = ':' ∧ c3 = '.' ∧
       h1.isDigit ∧ h2.isDigit ∧ m1.isDigit ∧ m2.isDigit ∧
       s1.isDigit ∧ s2.isDigit ∧ f1.isDigit ∧ f2.isDigit ∧ f3.isDigit then
      some (10 * digitVal h1 + digitVal h2,
            10 * digitVal m1 + digitVal m2,
            10 * digitVal s1 + digitVal s2,
            100 * digitVal f1 + 10 * digitVal f2 + digitVal f3)
    else none
  | _ => none

/-- Tail part of the regex `^\d+\.?\d*$` after the optional dot: `\d*`. -/
def decTail : List Char → Bool
  | [] => true
  | c :: cs => c.isDigit && decTail cs

/-- Part of the regex `^\d+\.?\d*$` after the first digit: `\d*\.?\d*`
(the leading `\d+` has already consumed one digit). -/
def decAfterDigit : List Char → Bool
  | [] => true
  | c :: cs => if c = '.' then decTail cs else c.isDigit && decAfterDigit cs

/-- Matcher for the anchored regex `^\d+\.?\d*$` (decimal-seconds form)
used by `Validator::validate_timestamp`. -/
def decimalMatch : List Char → Bool
  | [] => false
  | c :: cs => c.isDigit && decAfterDigit cs

/-- Embedding of `Validator::validate_timestamp` (validator.cpp lines 12-50): empty input is
rejected; then the input must match the `HH:MM:SS.mmm` regex or the decimal
regex; for the former, minutes and seconds must be < 60. -/
def validate_timestamp (timestamp : String) : ValidationResult :=
  if timestamp.isEmpty then
    { is_valid := false, error := ValidationError.InvalidTimestamp,
      error_message := "Timestamp cannot be empty" }
  else
    match timeMatch timestamp.toList with
    | some (_, minutes, seconds, _) =>
      if 60 ≤ minutes ∨ 60 ≤ seconds then
        { is_valid := false, error := ValidationError.InvalidTimestamp,
          error_message := "Invalid time values (minutes/seconds must be < 60)" }
      else
        { is_valid := true, error := ValidationError.None, error_message := "" }
    | none =>
      if decimalMatch timestamp.toList then
        { is_valid := true, error := ValidationError.None, error_message := "" }
      else
        { is_valid := false, error := ValidationError.InvalidTimestamp,
          error_message := "Invalid timestamp format. Use HH:MM:SS.mmm or decimal seconds" }

/-- Rational value of a string matching `^\d+\.?\d*$` (integer part, then an
optional dot and fractional digits), as `std::stod` computes it. -/
def decValue (l : List Char) : ℚ :=
  let intPart := l.takeWhile (fun c => c ≠ '.')
  match l.dropWhile (fun c => c ≠ '.') with
  | [] => (digitsVal intPart : ℚ)
  | _ :: frac => (digitsVal intPart : ℚ) + (digitsVal frac : ℚ) / 10 ^ frac.length

/-- Embedding of `Validator::timestamp_to_seconds` (validator.cpp lines 85-105):
`HH:MM:SS.mmm` is converted per components, otherwise the string is parsed by
`std::stod`. `std::stod` is modelled on the decimal shape `^\d+\.?\d*$` (the
only non-`HH:MM:SS.mmm` shape reaching it from `validate_time_range`, which
validates first); any other string yields `none` (the `catch` branch). -/
def timestamp_to_seconds (timestamp : String) : Option ℚ :=
  match timeMatch timestamp.toList with
  | some (hours, minutes, seconds, milliseconds) =>
    some ((hours : ℚ) * 3600 + (minutes : ℚ) * 60 + (seconds : ℚ) + (milliseconds : ℚ) / 1000)
  | none =>
    if decimalMatch timestamp.toList then some (decValue timestamp.toList) else none

/-- Embedding of `Validator::validate_time_range` (validator.cpp lines 52-83): both
timestamps are validated individually, converted to seconds, and the range is
rejected with `StartTimeAfterEndTime` unless start < end strictly. -/
def validate_time_range (start end_ : String) : ValidationResult :=
  let start_result := validate_timestamp start
  if start_result.is_valid = false then start_result
  else
    let end_result := validate_timestamp end_
    if end_result.is_valid = false then end_result
    else
      match timestamp_to_seconds start, timestamp_to_seconds end_ with
      | some start_seconds, some end_seconds =>
        if end_seconds ≤ start_seconds then
          { is_valid := false, error := ValidationError.StartTimeAfterEndTime,
            error_message := "Start time must be less than end time" }
        else
          { is_valid := true, error := ValidationError.None, error_message := "" }
      | _, _ =>
        { is_valid := false, error := ValidationError.InvalidTimestamp,
          error_message := "Failed to convert timestamps to seconds" }

/-- Embedding of `Validator::sanitize_filename` (validator.cpp lines 180-191): each
character in `dangerous_chars_` is replaced with an underscore, in place. -/
def sanitize_filename (filename : String) : String :=
  ⟨filename.toList.map (fun c => if dangerous_chars_.contains c then '_' else c)⟩

/-- Embedding of `Validator::contains_dangerous_chars` (validator.cpp lines 193-196):
true when any dangerous character occurs anywhere in the string. -/
def contains_dangerous_chars (path : String) : Bool :=
  dangerous_chars_.any (fun c => path.toList.contains c)

/-! ### Facts about sanitisation (claims C9, C10) -/

theorem sanitize_toList (s : String) :
    (sanitize_filename s).toList =
      s.toList.map (fun c => if dangerous_chars_.contains c then '_' else c) := rfl

theorem contains_eq_true_iff_mem (l : List Char) (c : Char) :
    l.contains c = true ↔ c ∈ l := by
  simp [List.contains]

theorem repl_not_mem_dangerous (c : Char) :
    (if dangerous_chars_.contains c then '_' else c) ∉ dangerous_chars_ := by
  by_cases h : c ∈ dangerous_chars_
  · rw [if_pos (by rwa [contains_eq_true_iff_mem])]
    decide
  · rw [if_neg (fun hc => h ((contains_eq_true_iff_mem _ _).mp hc))]
    exact h

/-- C9: `sanitize_filename` preserves the length, replaces exactly the
characters of the dangerous set `{';', '&', '|', '$', '`', '\n', '\r'}` with
an underscore pointwise, and maps `"a;b|c$d"` to `"a_b_c_d"`. -/
theorem sanitize_filename_pointwise (s : String) (i : Nat) (h : i < s.toList.length) :
    (sanitize_filename s).toList.length = s.toList.length ∧
    (sanitize_filename s).toList.getD i ' ' =
      (if dangerous_chars_.contains (s.toList.getD i ' ') then '_' else s.toList.getD i ' ') ∧
    sanitize_filename "a;b|c$d" = "a_b_c_d" := by
  refine ⟨by simpa using congrArg List.length (sanitize_toList s), ?_, by decide⟩
  rw [List.getD_eq_getElem?_getD, List.getD_eq_getElem?_getD, sanitize_toList,
    List.getElem?_map, List.getElem?_eq_getElem h]
  rfl

theorem sanitize_filename_pointwise_witness :
    0 < "a;b|c$d".toList.length ∧
    ((sanitize_filename "a;b|c$d").toList.length = "a;b|c$d".toList.length ∧
     (sanitize_filename "a;b|c$d").toList.getD 0 ' ' =
       (if dangerous_chars_.contains ("a;b|c$d".toList.getD 0 ' ') then '_'
        else "a;b|c$d".toList.getD 0 ' ') ∧
     sanitize_filename "a;b|c$d" = "a_b_c_d") :=
  ⟨by decide, sanitize_filename_pointwise "a;b|c$d" 0 (by decide)⟩

/-- C10: sanitised strings contain no dangerous characters, and
`sanitize_filename` is idempotent. -/
theorem sanitize_filename_idempotent_safe (s : String) :
    contains_dangerous_chars (sanitize_filename s) = false ∧
    sanitize_filename (sanitize_filename s) = sanitize_filename s := by
  constructor
  · rw [contains_dangerous_chars, List.any_eq_false]
    intro c hc hmem
    rw [contains_eq_true_iff_mem, sanitize_toList] at hmem
    obtain ⟨a, _, hfa⟩ := List.mem_map.mp hmem
    exact repl_not_mem_dangerous a (by rw [hfa]; exact hc)
  · show String.mk (((s.toList.map (fun c => if dangerous_chars_.contains c then '_' else c)).map
        (fun c => if dangerous_chars_.contains c then '_' else c))) =
      String.mk (s.toList.map (fun c => if dangerous_chars_.contains c then '_' else c))
    refine congrArg String.mk ?_
    rw [List.map_map]
    apply List.map_congr_left
    intro a _
    simp only [Function.comp_apply]
    cases h : dangerous_chars_.contains a
    · have h' : a ∉ dangerous_chars_ := fun hm => by
        have hc := (contains_eq_true_iff_mem dangerous_chars_ a).mpr hm
        rw [h] at hc
        exact Bool.false_ne_true hc
      simp [h, h']
    · simp [h]

/-! ### Timestamp parsing (claim C1) -/

/-- C1 counterexample: plain `HH:MM:SS` without a fractional part, and
`HH:MM:SS` with one fractional digit, are rejected by
`Validator::validate_timestamp` (the regex demands exactly three fractional
digits), contrary to the claim that they are accepted. -/
theorem validate_timestamp_rejects_bare_hms :
    (validate_timestamp "00:00:05").is_valid = false ∧
    (validate_timestamp "00:00:05").error = ValidationError.InvalidTimestamp ∧
    (validate_timestamp "00:00:05.5").is_valid = false ∧
    (validate_timestamp "00:00:05.5").error = ValidationError.InvalidTimestamp := by
  decide

/-- The timestamp shapes the validator actually accepts: exactly
`DD:DD:DD.DDD` (two digit chars for each of hours/minutes/seconds, a
mandatory dot, exactly three fractional digit chars) with the minutes and
seconds values below 60, or a bare decimal (one or more digits, optionally
followed by a dot and zero or more digits). -/
def acceptedTimestampShape (l : List Char) : Prop :=
  (∃ h1 h2 m1 m2 s1 s2 f1 f2 f3 : Char,
      l = [h1, h2, ':', m1, m2, ':', s1, s2, '.', f1, f2, f3] ∧
      (h1.isDigit ∧ h2.isDigit ∧ m1.isDigit ∧ m2.isDigit ∧ s1.isDigit ∧ s2.isDigit ∧
       f1.isDigit ∧ f2.isDigit ∧ f3.isDigit) ∧
      10 * digitVal m1 + digitVal m2 < 60 ∧ 10 * digitVal s1 + digitVal s2 < 60)
  ∨ (∃ ds es : List Char, ds ≠ [] ∧ ds.all Char.isDigit = true ∧ es.all Char.isDigit = true ∧
      (l = ds ∨ l = ds ++ '.' :: es))

theorem timeMatch_some_chars {l : List Char} {v : Nat × Nat × Nat × Nat}
    (hm : timeMatch l = some v) :
    ∃ h1 h2 m1 m2 s1 s2 f1 f2 f3 : Char,
      l = [h1, h2, ':', m1, m2, ':', s1, s2, '.', f1, f2, f3] ∧
      (h1.isDigit ∧ h2.isDigit ∧ m1.isDigit ∧ m2.isDigit ∧ s1.isDigit ∧ s2.isDigit ∧
       f1.isDigit ∧ f2.isDigit ∧ f3.isDigit) ∧
      v = (10 * digitVal h1 + digitVal h2, 10 * digitVal m1 + digitVal m2,
           10 * digitVal s1 + digitVal s2,
           100 * digitVal f1 + 10 * digitVal f2 + digitVal f3) := by
  rcases l with _ | ⟨h1, _ | ⟨h2, _ | ⟨c1, _ | ⟨m1, _ | ⟨m2, _ | ⟨c2, _ | ⟨s1, _ | ⟨s2, _ |
    ⟨c3, _ | ⟨f1, _ | ⟨f2, _ | ⟨f3, _ | ⟨x, rest⟩⟩⟩⟩⟩⟩⟩⟩⟩⟩⟩⟩⟩ <;>
    simp only [timeMatch] at hm <;> try exact Option.noConfusion hm
  split at hm
  · rename_i hcond
    obtain ⟨hc1, hc2, hc3, hd⟩ := hcond
    subst hc1
    subst hc2
    subst hc3
    injection hm with hv
    exact ⟨h1, h2, m1, m2, s1, s2, f1, f2, f3, rfl, hd, hv.symm⟩
  · exact Option.noConfusion hm

theorem timeMatch_shape {h1 h2 m1 m2 s1 s2 f1 f2 f3 : Char}
    (hd : h1.isDigit ∧ h2.isDigit ∧ m1.isDigit ∧ m2.isDigit ∧ s1.isDigit ∧ s2.isDigit ∧
          f1.isDigit ∧ f2.isDigit ∧ f3.isDigit) :
    timeMatch [h1, h2, ':', m1, m2, ':', s1, s2, '.', f1, f2, f3] =
      some (10 * digitVal h1 + digitVal h2, 10 * digitVal m1 + digitVal m2,
            10 * digitVal s1 + digitVal s2,
            100 * digitVal f1 + 10 * digitVal f2 + digitVal f3) := by
  obtain ⟨d1, d2, d3, d4, d5, d6, d7, d8, d9⟩ := hd
  simp [timeMatch, d1, d2, d3, d4, d5, d6, d7, d8, d9]

theorem decTail_iff (l : List Char) : decTail l = true ↔ l.all Char.isDigit = true := by
  induction l with
  | nil => simp [decTail]
  | cons c cs ih => simp [decTail, ih]

theorem decAfterDigit_iff (l : List Char) :
    decAfterDigit l = true ↔
      ∃ ds es : List Char, ds.all Char.isDigit = true ∧ es.all Char.isDigit = true ∧
        (l = ds ∨ l = ds ++ '.' :: es) := by
  induction l with
  | nil =>
    constructor
    · intro _
      exact ⟨[], [], rfl, rfl, Or.inl rfl⟩
    · intro _
      rfl
  | cons c cs ih =>
    by_cases hc : c = '.'
    · subst hc
      rw [show decAfterDigit ('.' :: cs) = decTail cs from by simp [decAfterDigit], decTail_iff]
      constructor
      · intro h
        exact ⟨[], cs, rfl, h, Or.inr rfl⟩
      · rintro ⟨ds, es, hds, hes, h | h⟩
        · rcases ds with _ | ⟨d, ds1⟩
          · exact absurd h (by simp)
          · injection h with h1 h2
            subst h1
            simp at hds
        · rcases ds with _ | ⟨d, ds1⟩
          · simp only [List.nil_append] at h
            injection h with _ h2
            rw [h2]
            exact hes
          · injection h with h1 h2
            subst h1
            simp at hds
    · rw [show decAfterDigit (c :: cs) = (c.isDigit && decAfterDigit cs) from by
        simp [decAfterDigit, hc], Bool.and_eq_true, ih]
      constructor
      · rintro ⟨hcd, ds, es, hds, hes, h | h⟩
        · exact ⟨c :: ds, es, by simp [hcd, hds], hes, Or.inl (by rw [h])⟩
        · exact ⟨c :: ds, es, by simp [hcd, hds], hes, Or.inr (by rw [h]; rfl)⟩
      · rintro ⟨ds, es, hds, hes, h | h⟩
        · rcases ds with _ | ⟨d, ds1⟩
          · exact absurd h (by simp)
          · injection h with h1 h2
            subst h1
            rw [List.all_cons, Bool.and_eq_true] at hds
            exact ⟨hds.1, ds1, [], hds.2, rfl, Or.inl h2⟩
        · rcases ds with _ | ⟨d, ds1⟩
          · simp only [List.nil_append] at h
            injection h with h1 _
            exact absurd h1 hc
          · injection h with h1 h2
            subst h1
            rw [List.all_cons, Bool.and_eq_true] at hds
            exact ⟨hds.1, ds1, es, hds.2, hes, Or.inr h2⟩

theorem decimalMatch_iff (l : List Char) :
    decimalMatch l = true ↔
      ∃ ds es : List Char, ds ≠ [] ∧ ds.all Char.isDigit = true ∧ es.all Char.isDigit = true ∧
        (l = ds ∨ l = ds ++ '.' :: es) := by
  cases l with
  | nil =>
    constructor
    · intro h
      exact absurd h (by simp [decimalMatch])
    · rintro ⟨ds, es, hne, _, _, h | h⟩
      · exact absurd h.symm hne
      · rcases ds with _ | ⟨d, ds1⟩
        · exact absurd rfl hne
        · exact absurd h (by simp)
  | cons c cs =>
    rw [show decimalMatch (c :: cs) = (c.isDigit && decAfterDigit cs) from rfl,
      Bool.and_eq_true, decAfterDigit_iff]
    constructor
    · rintro ⟨hcd, ds, es, hds, hes, h | h⟩
      · exact ⟨c :: ds, es, by simp, by simp [hcd, hds], hes, Or.inl (by rw [h])⟩
      · exact ⟨c :: ds, es, by simp, by simp [hcd, hds], hes, Or.inr (by rw [h]; rfl)⟩
    · rintro ⟨ds, es, hne, hds, hes, h | h⟩
      · rcases ds with _ | ⟨d, ds1⟩
        · exact absurd rfl hne
        · injection h with h1 h2
          subst h1
          rw [List.all_cons, Bool.and_eq_true] at hds
          exact ⟨hds.1, ds1, [], hds.2, rfl, Or.inl h2⟩
      · rcases ds with _ | ⟨d, ds1⟩
        · exact absurd rfl hne
        · injection h with h1 h2
          subst h1
          rw [List.all_cons, Bool.and_eq_true] at hds
          exact ⟨hds.1, ds1, es, hds.2, hes, Or.inr h2⟩

theorem timeMatch_none_of_decimal {l : List Char}
    (h : ∃ ds es : List Char, ds ≠ [] ∧ ds.all Char.isDigit = true ∧ es.all Char.isDigit = true ∧
        (l = ds ∨ l = ds ++ '.' :: es)) :
    timeMatch l = none := by
  cases htm : timeMatch l with
  | none => rfl
  | some v =>
    exfalso
    obtain ⟨h1, h2, m1, m2, s1, s2, f1, f2, f3, hl, _, _⟩ := timeMatch_some_chars htm
    obtain ⟨ds, es, _, hds, hes, hor⟩ := h
    have hcmem : ':' ∈ l := by
      rw [hl]
      simp
    have hbad : (':'.isDigit = true) ∨ (':' = '.') := by
      rcases hor with h1 | h1
      · rw [h1] at hcmem
        exact Or.inl (List.all_eq_true.mp hds _ hcmem)
      · rw [h1] at hcmem
        rcases List.mem_append.mp hcmem with hmem | hmem
        · exact Or.inl (List.all_eq_true.mp hds _ hmem)
        · rcases List.mem_cons.mp hmem with hmem | hmem
          · exact Or.inr hmem
          · exact Or.inl (List.all_eq_true.mp hes _ hmem)
    rcases hbad with hbad | hbad <;> exact absurd hbad (by decide)

theorem isEmpty_false_of_toList_ne {s : String} (h : s.toList ≠ []) : s.isEmpty = false := by
  cases he : s.isEmpty
  · rfl
  · exfalso
    apply h
    have : s = "" := (String.isEmpty_iff s).mp (by rw [he])
    rw [this]
    rfl

/-- C1 (amended): `Validator::validate_timestamp` accepts exactly the strings
of shape `DD:DD:DD.DDD` (two-digit fields, mandatory dot and exactly three
fractional digits) with minutes and seconds < 60, or a bare decimal
`digits [. digits]`; plain `HH:MM:SS` without exactly three fractional digits
is rejected. -/
theorem validate_timestamp_accepts_iff (s : String) :
    (validate_timestamp s).is_valid = true ↔ acceptedTimestampShape s.toList := by
  constructor
  · intro hvalid
    rw [validate_timestamp] at hvalid
    split at hvalid
    · simp at hvalid
    · split at hvalid
      · rename_i heq
        split at hvalid
        · simp at hvalid
        · rename_i hbound
          obtain ⟨h1, h2, m1, m2, s1, s2, f1, f2, f3, hl, hdig, hv⟩ := timeMatch_some_chars heq
          simp only [Prod.mk.injEq] at hv
          obtain ⟨_, hv2, hv3, _⟩ := hv
          refine Or.inl ⟨h1, h2, m1, m2, s1, s2, f1, f2, f3, hl, hdig, ?_, ?_⟩ <;> omega
      · rename_i heq
        split at hvalid
        · rename_i hdec
          exact Or.inr ((decimalMatch_iff _).mp hdec)
        · simp at hvalid
  · intro hshape
    rcases hshape with ⟨h1, h2, m1, m2, s1, s2, f1, f2, f3, hl, hdig, hm60, hs60⟩ | hdec
    · have hemp : s.isEmpty = false := isEmpty_false_of_toList_ne (by rw [hl]; simp)
      rw [validate_timestamp, hl]
      simp only [hemp, Bool.false_eq_true, if_false, timeMatch_shape hdig]
      rw [if_neg (by omega)]
    · have hlne : s.toList ≠ [] := by
        obtain ⟨ds, es, hne, _, _, hor⟩ := hdec
        rcases hor with h | h <;> rw [h]
        · exact hne
        · simp
      have hemp : s.isEmpty = false := isEmpty_false_of_toList_ne hlne
      have htm : timeMatch s.toList = none := timeMatch_none_of_decimal hdec
      have hdm : decimalMatch s.toList = true := (decimalMatch_iff _).mpr hdec
      rw [validate_timestamp]
      simp [hemp, show timeMatch s.data = none from htm, show decimalMatch s.data = true from hdm,
        htm, hdm]

/-! ### Time-range validation (claim C7) -/

theorem timestamp_to_seconds_isSome_of_valid {s : String}
    (h : (validate_timestamp s).is_valid = true) :
    ∃ q : ℚ, timestamp_to_seconds s = some q := by
  cases htm : timeMatch s.toList with
  | some v =>
    obtain ⟨hh, mm, ss, ff⟩ := v
    exact ⟨_, by rw [timestamp_to_seconds, htm]⟩
  | none =>
    rw [validate_timestamp] at h
    split at h
    · simp at h
    · rw [htm] at h
      split at h
      · rename_i habs
        exact absurd habs (by simp)
      · split at h
        · rename_i hdec
          exact ⟨decValue s.toList,
            by rw [timestamp_to_seconds, htm,
              if_pos (show decimalMatch s.toList = true from hdec)]⟩
        · simp at h

/-- C7: for individually valid timestamps, `Validator::validate_time_range`
succeeds exactly when the start value is strictly below the end value, and
when start ≥ end (including equality) it fails with `StartTimeAfterEndTime`. -/
theorem validate_time_range_spec (s e : String)
    (hs : (validate_timestamp s).is_valid = true)
    (he : (validate_timestamp e).is_valid = true) :
    ((validate_time_range s e).is_valid = true ↔
      (timestamp_to_seconds s).getD 0 < (timestamp_to_seconds e).getD 0) ∧
    ((timestamp_to_seconds e).getD 0 ≤ (timestamp_to_seconds s).getD 0 →
      (validate_time_range s e).error = ValidationError.StartTimeAfterEndTime) := by
  obtain ⟨qs, hqs⟩ := timestamp_to_seconds_isSome_of_valid hs
  obtain ⟨qe, hqe⟩ := timestamp_to_seconds_isSome_of_valid he
  rw [hqs, hqe]
  simp only [Option.getD_some]
  by_cases hcmp : qe ≤ qs
  · constructor
    · rw [validate_time_range]
      simp [hs, he, hqs, hqe, hcmp, not_lt.mpr hcmp]
    · intro _
      rw [validate_time_range]
      simp [hs, he, hqs, hqe, hcmp]
  · constructor
    · rw [validate_time_range]
      simp [hs, he, hqs, hqe, hcmp, lt_of_not_le hcmp]
    · intro hle
      exact absurd hle hcmp

theorem validate_time_range_spec_witness :
    (validate_timestamp "00:00:10.000").is_valid = true ∧
    (validate_timestamp "00:00:05.000").is_valid = true ∧
    (((validate_time_range "00:00:10.000" "00:00:05.000").is_valid = true ↔
      (timestamp_to_seconds "00:00:10.000").getD 0 < (timestamp_to_seconds "00:00:05.000").getD 0) ∧
    ((timestamp_to_seconds "00:00:05.000").getD 0 ≤ (timestamp_to_seconds "00:00:10.000").getD 0 →
      (validate_time_range "00:00:10.000" "00:00:05.000").error =
        ValidationError.StartTimeAfterEndTime)) :=
  ⟨by decide, by decide,
    validate_time_range_spec "00:00:10.000" "00:00:05.000" (by decide) (by decide)⟩

/-! ## SegmentManager (src/trim_segment.cpp) -/

/-- The `TrimSegment` struct from trim_segment.hpp. The C++ struct stores `start_time`
and `end_time` as `HH:MM:SS.mmm`/decimal strings which
`SegmentManager::time_to_seconds` converts to `double` for every comparison;
the embedding carries the converted numeric value (as `ℚ`) directly. A
default-constructed segment has empty time strings, which
`time_to_seconds` maps to `0.0`, and is enabled. -/
structure TrimSegment where
  start_time : ℚ
  end_time : ℚ
  name : String
  enabled : Bool
  deriving DecidableEq, Repr

instance : Inhabited TrimSegment := ⟨⟨0, 0, "", true⟩⟩

/-- Embedding of `SegmentManager::check_overlaps` (trim_segment.cpp lines 74-99): the outer
loop runs `i` over all positions, skipping the excluded index and disabled
segments; the inner loop runs `j` from `i + 1` (rendered as a filter `i < j`
over all positions) with the same skips; a pair reports an overlap when
`start_i < end_j && end_i > start_j`. -/
def check_overlaps (segments_ : List TrimSegment) (exclude_index : Nat) : Bool :=
  (List.range segments_.length).any fun i =>
    if i = exclude_index ∨ (segments_.getD i default).enabled = false then false
    else
      (List.range segments_.length).any fun j =>
        if j ≤ i ∨ j = exclude_index ∨ (segments_.getD j default).enabled = false then false
        else
          decide ((segments_.getD i default).start_time < (segments_.getD j default).end_time ∧
            (segments_.getD i default).end_time > (segments_.getD j default).start_time)

/-- C4: `check_overlaps` returns true exactly when two distinct enabled
segments, neither at the excluded index, have overlapping open intervals
(`start_i < end_j` and `end_i > start_j`); touching intervals do not count
and disabled segments take part in no pair. -/
theorem check_overlaps_iff (segments_ : List TrimSegment) (exclude_index : Nat) :
    check_overlaps segments_ exclude_index = true ↔
      ∃ i j, i < segments_.length ∧ j < segments_.length ∧ i ≠ j ∧
        i ≠ exclude_index ∧ j ≠ exclude_index ∧
        (segments_.getD i default).enabled = true ∧
        (segments_.getD j default).enabled = true ∧
        (segments_.getD i default).start_time < (segments_.getD j default).end_time ∧
        (segments_.getD i default).end_time > (segments_.getD j default).start_time := by
  rw [check_overlaps]
  simp only [List.any_eq_true, List.mem_range]
  constructor
  · rintro ⟨i, hi, hbody⟩
    by_cases hskip : i = exclude_index ∨ (segments_.getD i default).enabled = false
    · rw [if_pos hskip] at hbody
      exact absurd hbody (by simp)
    · rw [if_neg hskip] at hbody
      push_neg at hskip
      simp only [List.any_eq_true, List.mem_range] at hbody
      obtain ⟨j, hj, hbody2⟩ := hbody
      by_cases hskip2 : j ≤ i ∨ j = exclude_index ∨ (segments_.getD j default).enabled = false
      · rw [if_pos hskip2] at hbody2
        exact absurd hbody2 (by simp)
      · rw [if_neg hskip2] at hbody2
        push_neg at hskip2
        obtain ⟨hji, hjex, hjen⟩ := hskip2
        obtain ⟨hov1, hov2⟩ := of_decide_eq_true hbody2
        exact ⟨i, j, hi, hj, by omega, hskip.1, hjex,
          Bool.ne_false_iff.mp hskip.2, Bool.ne_false_iff.mp hjen, hov1, hov2⟩
  · rintro ⟨i, j, hi, hj, hij, hiex, hjex, hien, hjen, hov1, hov2⟩
    rcases Nat.lt_or_ge i j with hlt | hge
    · refine ⟨i, hi, ?_⟩
      rw [if_neg (by push_neg; exact ⟨hiex, by rw [hien]; simp⟩)]
      simp only [List.any_eq_true, List.mem_range]
      refine ⟨j, hj, ?_⟩
      rw [if_neg (by push_neg; exact ⟨by omega, hjex, by rw [hjen]; simp⟩)]
      exact decide_eq_true ⟨hov1, hov2⟩
    · have hlt : j < i := by omega
      refine ⟨j, hj, ?_⟩
      rw [if_neg (by push_neg; exact ⟨hjex, by rw [hjen]; simp⟩)]
      simp only [List.any_eq_true, List.mem_range]
      refine ⟨i, hi, ?_⟩
      rw [if_neg (by push_neg; exact ⟨by omega, hiex, by rw [hien]; simp⟩)]
      exact decide_eq_true ⟨hov2, hov1⟩

/-- Concrete overlap checks from the specification: `[0,10]` and `[5,15]`
overlap, disabling the second removes the overlap, and touching segments
`[0,10]`, `[10,20]` do not overlap. -/
theorem check_overlaps_examples :
    check_overlaps [⟨0, 10, "A", true⟩, ⟨5, 15, "B", true⟩] 999 = true ∧
    check_overlaps [⟨0, 10, "A", true⟩, ⟨5, 15, "B", false⟩] 999 = false ∧
    check_overlaps [⟨0, 10, "A", true⟩, ⟨10, 20, "B", true⟩] 999 = false := by
  decide

/-- Embedding of `SegmentManager::remove_segment` (trim_segment.cpp lines 12-16):
erases the element at `index` when in bounds, otherwise does nothing. -/
def remove_segment (segments_ : List TrimSegment) (index : Nat) : List TrimSegment :=
  if index < segments_.length then segments_.eraseIdx index else segments_

/-- Embedding of `SegmentManager::update_segment` (trim_segment.cpp lines 18-22):
overwrites the element at `index` when in bounds, otherwise does nothing. -/
def update_segment (segments_ : List TrimSegment) (index : Nat) (segment : TrimSegment) :
    List TrimSegment :=
  if index < segments_.length then segments_.set index segment else segments_

/-- Embedding of `SegmentManager::move_segment` (trim_segment.cpp lines 28-40): no-op when
either index is out of bounds or when the indices coincide; otherwise removes
the element at `from_index` and reinserts it at `to_index`. -/
def move_segment (segments_ : List TrimSegment) (from_index to_index : Nat) :
    List TrimSegment :=
  if from_index ≥ segments_.length ∨ to_index ≥ segments_.length then segments_
  else if from_index = to_index then segments_
  else (segments_.eraseIdx from_index).insertIdx to_index (segments_.getD from_index default)

/-- Embedding of `SegmentManager::get_segment` (trim_segment.cpp lines 42-48): returns a
static default-constructed segment when `index` is out of bounds. -/
def get_segment (segments_ : List TrimSegment) (index : Nat) : TrimSegment :=
  if index ≥ segments_.length then default else segments_.getD index default

/-- C8: out-of-bounds `remove_segment` and `update_segment` leave the
sequence unchanged, out-of-bounds `get_segment` returns the default segment,
and `move_segment` is a no-op when either index is out of bounds or the two
indices are equal. -/
theorem segment_ops_oob_noop (segments_ : List TrimSegment) (i j : Nat) (seg : TrimSegment) :
    (segments_.length ≤ i →
      remove_segment segments_ i = segments_ ∧
      update_segment segments_ i seg = segments_ ∧
      get_segment segments_ i = default) ∧
    (segments_.length ≤ i ∨ segments_.length ≤ j ∨ i = j →
      move_segment segments_ i j = segments_) := by
  constructor
  · intro h
    refine ⟨?_, ?_, ?_⟩
    · rw [remove_segment, if_neg (by omega)]
    · rw [update_segment, if_neg (by omega)]
    · rw [get_segment, if_pos (by omega)]
  · intro h
    rcases h with h | h | h
    · rw [move_segment, if_pos (Or.inl (by omega))]
    · rw [move_segment, if_pos (Or.inr (by omega))]
    · rw [move_segment]
      by_cases hb : i ≥ segments_.length ∨ j ≥ segments_.length
      · rw [if_pos hb]
      · rw [if_neg hb, if_pos h]

/-! ## FFmpegExecutor (src/ffmpeg_executor.cpp) -/

/-- The `TrimOptions` struct from ffmpeg_executor.hpp (paths kept as strings). -/
structure TrimOptions where
  input_file : String
  output_file : String
  start_time : String
  end_time : String
  use_copy_codec : Bool
  deriving DecidableEq, Repr

/-- Embedding of `FFmpegExecutor::build_ffmpeg_command` (ffmpeg_executor.cpp lines 94-110):
string concatenation into one whitespace-joined shell command, with the input
and output paths wrapped in double quotes. `ffmpeg_path_` is the member the
constructor discovered; it is passed explicitly here. The executor runs the
same kind of single string through `popen` (a shell) in
`execute_trim`/`execute_trim_async`; no argument vector is ever built, and no
multi-segment builder is defined in ffmpeg_executor.cpp. -/
def build_ffmpeg_command (ffmpeg_path : String) (options : TrimOptions) : String :=
  ffmpeg_path ++ " " ++
  "-ss " ++ options.start_time ++ " " ++
  "-to " ++ options.end_time ++ " " ++
  "-i \"" ++ options.input_file ++ "\" " ++
  (if options.use_copy_codec then "-c copy " else "") ++
  "\"" ++ options.output_file ++ "\""

/-- C3 (code bug): the command builder returns one flat shell command string
with embedded quoting — not an argument vector. At a concrete job the result
is a single string; a path containing a space or a quote is spliced straight
into the shell text. -/
theorem build_ffmpeg_command_is_shell_string :
    build_ffmpeg_command "/usr/bin/ffmpeg"
      { input_file := "in put.mp4", output_file := "out.mp4",
        start_time := "0", end_time := "5", use_copy_codec := true } =
      "/usr/bin/ffmpeg -ss 0 -to 5 -i \"in put.mp4\" -c copy \"out.mp4\"" ∧
    (build_ffmpeg_command "/usr/bin/ffmpeg"
      { input_file := "in put.mp4", output_file := "out.mp4",
        start_time := "0", end_time := "5", use_copy_codec := true }).toList.contains '\"' =
      true := by
  constructor
  · rfl
  · decide

/-- The `FFmpegProgress` struct from ffmpeg_executor.hpp; `percentage` (`double`) is
modelled as `ℚ`. -/
structure FFmpegProgress where
  percentage : ℚ
  current_time : String
  fps : String
  speed : String
  deriving DecidableEq, Repr

/-- Rendering with `std::setfill('0') << std::setw(2)` of a number. -/
def pad2 (n : Nat) : String :=
  if n < 10 then "0" ++ toString n else toString n

/-- One position of the `out_time_us=(\d+)` scan: match the literal
`out_time_us=` here, followed by at least one digit; the capture is the
maximal digit run (the group `std::stoll` reads). -/
def out_time_here (l : List Char) : Option Nat :=
  match l with
  | 'o' :: 'u' :: 't' :: '_' :: 't' :: 'i' :: 'm' :: 'e' :: '_' :: 'u' :: 's' :: '=' :: rest =>
    if (rest.takeWhile Char.isDigit).isEmpty then none
    else some (digitsVal (rest.takeWhile Char.isDigit))
  | _ => none

/-- Scan of `std::regex_search` with `out_time_us=(\d+)`: try the pattern at every
position, left to right. -/
def out_time_match : List Char → Option Nat
  | [] => none
  | c :: rest =>
    match out_time_here (c :: rest) with
    | some n => some n
    | none => out_time_match rest

/-- Embedding of `FFmpegExecutor::parse_progress_line` (ffmpeg_executor.cpp lines
371-403), machine-dialect branch: an `out_time_us=N` match yields
`current_seconds = N / 1e6`, a percentage `min(100, cs/total*100)` when the
total duration is positive (left at `0` otherwise), and a zero-padded
`HH:MM:SS` rendering obtained by truncating the nonnegative doubles
(truncation of a nonnegative value is `⌊·⌋₊`). Lines without an
`out_time_us` match fall through to the stderr dialect, which populates
fields only from `time=`/`fps=`/`speed=` fragments; such lines are outside
the claims checked here and are modelled by the all-default snapshot the
source returns when none of those fragments occurs. -/
def parse_progress_line (line : String) (total_duration : ℚ) : FFmpegProgress :=
  match out_time_match line.toList with
  | some microseconds =>
    let current_seconds : ℚ := (microseconds : ℚ) / 1000000
    let hours : Nat := ⌊current_seconds / 3600⌋₊
    let minutes : Nat := ⌊(current_seconds - (hours : ℚ) * 3600) / 60⌋₊
    let seconds : Nat := ⌊current_seconds - (hours : ℚ) * 3600 - (minutes : ℚ) * 60⌋₊
    { percentage :=
        if 0 < total_duration then min 100 (current_seconds / total_duration * 100) else 0,
      current_time := pad2 hours ++ ":" ++ pad2 minutes ++ ":" ++ pad2 seconds,
      fps := "", speed := "" }
  | none => { percentage := 0, current_time := "", fps := "", speed := "" }

theorem hours_floor_eq (N : Nat) :
    ⌊(N : ℚ) / 1000000 / 3600⌋₊ = N / 1000000 / 3600 := by
  rw [show (1000000 : ℚ) = ((1000000 : ℕ) : ℚ) from by norm_num,
    show (3600 : ℚ) = ((3600 : ℕ) : ℚ) from by norm_num,
    Nat.floor_div_nat, Nat.floor_div_nat, Nat.floor_natCast]

theorem minutes_floor_eq (N : Nat) :
    ⌊((N : ℚ) / 1000000 - ((N / 1000000 / 3600 : ℕ) : ℚ) * 3600) / 60⌋₊ =
      N / 1000000 % 3600 / 60 := by
  have hK : N / 1000000 / 3600 * 3600 * 1000000 ≤ N := by omega
  have key : (N : ℚ) / 1000000 - ((N / 1000000 / 3600 : ℕ) : ℚ) * 3600 =
      ((N - N / 1000000 / 3600 * 3600 * 1000000 : ℕ) : ℚ) / 1000000 := by
    rw [Nat.cast_sub hK]
    push_cast
    field_simp
    ring
  rw [key, show (1000000 : ℚ) = ((1000000 : ℕ) : ℚ) from by norm_num,
    show (60 : ℚ) = ((60 : ℕ) : ℚ) from by norm_num,
    Nat.floor_div_nat, Nat.floor_div_nat, Nat.floor_natCast]
  omega

theorem seconds_floor_eq (N : Nat) :
    ⌊(N : ℚ) / 1000000 - ((N / 1000000 / 3600 : ℕ) : ℚ) * 3600 -
        ((N / 1000000 % 3600 / 60 : ℕ) : ℚ) * 60⌋₊ =
      N / 1000000 % 60 := by
  have hK : N / 1000000 / 3600 * 3600 * 1000000 + N / 1000000 % 3600 / 60 * 60 * 1000000 ≤ N := by
    omega
  have key : (N : ℚ) / 1000000 - ((N / 1000000 / 3600 : ℕ) : ℚ) * 3600 -
      ((N / 1000000 % 3600 / 60 : ℕ) : ℚ) * 60 =
      ((N - (N / 1000000 / 3600 * 3600 * 1000000 + N / 1000000 % 3600 / 60 * 60 * 1000000) : ℕ) :
        ℚ) / 1000000 := by
    rw [Nat.cast_sub hK]
    push_cast
    field_simp
    ring
  rw [key, show (1000000 : ℚ) = ((1000000 : ℕ) : ℚ) from by norm_num,
    Nat.floor_div_nat, Nat.floor_natCast]
  omega

/-- C5: on a progress line `out_time_us=N`, the parser reports percentage
`min(100, (N/1000000)/D*100)` when the total duration `D` is positive and `0`
otherwise, and renders the current time as zero-padded `HH:MM:SS` derived
from the whole seconds `N / 1000000`. -/
theorem parse_progress_line_spec (ds : List Char) (D : ℚ)
    (hne : ds ≠ []) (hdig : ds.all Char.isDigit = true) :
    parse_progress_line
        (String.mk
          ('o' :: 'u' :: 't' :: '_' :: 't' :: 'i' :: 'm' :: 'e' :: '_' :: 'u' :: 's' :: '=' :: ds))
        D =
      { percentage := if 0 < D then min 100 ((digitsVal ds : ℚ) / 1000000 / D * 100) else 0,
        current_time :=
          pad2 (digitsVal ds / 1000000 / 3600) ++ ":" ++
          pad2 (digitsVal ds / 1000000 % 3600 / 60) ++ ":" ++
          pad2 (digitsVal ds / 1000000 % 60),
        fps := "", speed := "" } := by
  have htw : ds.takeWhile Char.isDigit = ds :=
    List.takeWhile_eq_self_iff.mpr (fun x hx => List.all_eq_true.mp hdig x hx)
  have hhere : out_time_here
      ('o' :: 'u' :: 't' :: '_' :: 't' :: 'i' :: 'm' :: 'e' :: '_' :: 'u' :: 's' :: '=' :: ds) =
      some (digitsVal ds) := by
    show (if (ds.takeWhile Char.isDigit).isEmpty then none
      else some (digitsVal (ds.takeWhile Char.isDigit))) = some (digitsVal ds)
    rw [htw, if_neg (by simp [hne])]
  have hout : out_time_match
      ('o' :: 'u' :: 't' :: '_' :: 't' :: 'i' :: 'm' :: 'e' :: '_' :: 'u' :: 's' :: '=' :: ds) =
      some (digitsVal ds) := by
    rw [out_time_match, hhere]
  rw [parse_progress_line]
  rw [show (String.mk
      ('o' :: 'u' :: 't' :: '_' :: 't' :: 'i' :: 'm' :: 'e' :: '_' :: 'u' :: 's' :: '=' :: ds)).toList =
      ('o' :: 'u' :: 't' :: '_' :: 't' :: 'i' :: 'm' :: 'e' :: '_' :: 'u' :: 's' :: '=' :: ds)
    from rfl, hout]
  simp only [hours_floor_eq, minutes_floor_eq, seconds_floor_eq]

theorem parse_progress_line_spec_witness :
    ['5', '0', '0', '0', '0', '0', '0'] ≠ ([] : List Char) ∧
    (['5', '0', '0', '0', '0', '0', '0'].all Char.isDigit = true) ∧
    String.mk
        ('o' :: 'u' :: 't' :: '_' :: 't' :: 'i' :: 'm' :: 'e' :: '_' :: 'u' :: 's' :: '=' ::
          ['5', '0', '0', '0', '0', '0', '0']) = "out_time_us=5000000" ∧
    parse_progress_line "out_time_us=5000000" 10 =
      { percentage := 50, current_time := "00:00:05", fps := "", speed := "" } := by
  refine ⟨by decide, by decide, by decide, ?_⟩
  have h := parse_progress_line_spec ['5', '0', '0', '0', '0', '0', '0'] 10
    (by decide) (by decide)
  have hd : digitsVal ['5', '0', '0', '0', '0', '0', '0'] = 5000000 := by decide
  rw [show ("out_time_us=5000000" : String) = String.mk
      ('o' :: 'u' :: 't' :: '_' :: 't' :: 'i' :: 'm' :: 'e' :: '_' :: 'u' :: 's' :: '=' ::
        ['5', '0', '0', '0', '0', '0', '0']) from by decide, h, hd]
  simp only [FFmpegProgress.mk.injEq]
  refine ⟨?_, by decide, by trivial, by trivial⟩
  rw [if_pos (by norm_num : (0 : ℚ) < 10)]
  rw [show ((5000000 : ℕ) : ℚ) / 1000000 / 10 * 100 = 50 from by norm_num]
  exact min_eq_right (by norm_num)

theorem segment_ops_oob_noop_witness :
    remove_segment [⟨0, 10, "a", true⟩] 5 = [⟨0, 10, "a", true⟩] ∧
    update_segment [⟨0, 10, "a", true⟩] 5 ⟨0, 10, "a", true⟩ = [⟨0, 10, "a", true⟩] ∧
    get_segment [⟨0, 10, "a", true⟩] 5 = default ∧
    move_segment [⟨0, 10, "a", true⟩] 5 5 = [⟨0, 10, "a", true⟩] := by
  have h := segment_ops_oob_noop [⟨0, 10, "a", true⟩] 5 5 ⟨0, 10, "a", true⟩
  exact ⟨(h.1 (by decide)).1, (h.1 (by decide)).2.1, (h.1 (by decide)).2.2, h.2 (by decide)⟩

/-! ## Batch orchestration (src/gui/main_window.cpp, MainWindow::process_next_batch_file) -/

/-- Terminal status that the `execute_trim_async` status callback of a job delivers to
the batch callback in main_window.cpp lines 471-491 (`Completed` or `Failed`
with its message; the non-terminal `Running` update goes to
`on_status_update` and touches no batch state). -/
inductive JobOutcome where
  | completed
  | failed (message : String)
  deriving DecidableEq, Repr

/-- The batch-relevant fields of `MainWindow`: `current_batch_index_`,
`total_batch_count_`, `is_trimming_` and the log. -/
structure BatchState where
  current_batch_index : Nat
  total_batch_count : Nat
  is_trimming : Bool
  log_messages : List String
  deriving DecidableEq, Repr

/-- `MainWindow::process_next_batch_file` (main_window.cpp lines 426-493),
with the async status callback chain flattened into recursion: while jobs
remain, log the `Processing file k/total: file` line, run the job, append
`✓ File k completed.` or `✗ File k failed: message` according to its terminal
status, advance `current_batch_index_` in both cases, and recurse; once the
index reaches the end, log the fixed completion banner and reset the index,
count and trimming flag. `outcomes` lists the terminal status of each job. -/
def process_next_batch_file (batch_files : List String) (outcomes : List JobOutcome)
    (st : BatchState) : BatchState :=
  if _h : batch_files.length ≤ st.current_batch_index then
    { st with
      is_trimming := false
      current_batch_index := 0
      total_batch_count := 0
      log_messages := st.log_messages ++ ["=== Batch trim completed! ==="] }
  else
    match outcomes.getD st.current_batch_index JobOutcome.completed with
    | JobOutcome.completed =>
      process_next_batch_file batch_files outcomes
        { st with
          current_batch_index := st.current_batch_index + 1
          log_messages :=
            (st.log_messages ++
              ["Processing file " ++ toString (st.current_batch_index + 1) ++ "/" ++
                toString st.total_batch_count ++ ": " ++
                batch_files.getD st.current_batch_index ""]) ++
            ["✓ File " ++ toString (st.current_batch_index + 1) ++ " completed."] }
    | JobOutcome.failed message =>
      process_next_batch_file batch_files outcomes
        { st with
          current_batch_index := st.current_batch_index + 1
          log_messages :=
            (st.log_messages ++
              ["Processing file " ++ toString (st.current_batch_index + 1) ++ "/" ++
                toString st.total_batch_count ++ ": " ++
                batch_files.getD st.current_batch_index ""]) ++
            ["✗ File " ++ toString (st.current_batch_index + 1) ++ " failed: " ++ message] }
termination_by batch_files.length - st.current_batch_index
decreasing_by
  all_goals simp
  all_goals omega

theorem pnbf_log_mono (batch_files : List String) (outcomes : List JobOutcome) :
    ∀ n (st : BatchState), batch_files.length - st.current_batch_index = n →
      ∀ m ∈ st.log_messages,
        m ∈ (process_next_batch_file batch_files outcomes st).log_messages := by
  intro n
  induction n using Nat.strong_induction_on with
  | _ n ih =>
    intro st hn m hm
    rw [process_next_batch_file]
    split
    · exact List.mem_append_left _ hm
    · rename_i h
      split
      · exact ih (batch_files.length - (st.current_batch_index + 1)) (by omega) _ rfl m
          (List.mem_append_left _ (List.mem_append_left _ hm))
      · exact ih (batch_files.length - (st.current_batch_index + 1)) (by omega) _ rfl m
          (List.mem_append_left _ (List.mem_append_left _ hm))

/-- C2 (amended): whenever the recursion finishes (the index has reached the
end of the job list), the final state has index `0`, count `0`, the trimming
flag cleared — so the orchestrator is reusable — and the last log entry is
the fixed completion banner, which carries no per-batch counts. -/
theorem process_next_batch_file_final (batch_files : List String) (outcomes : List JobOutcome)
    (st : BatchState) :
    (process_next_batch_file batch_files outcomes st).current_batch_index = 0 ∧
    (process_next_batch_file batch_files outcomes st).total_batch_count = 0 ∧
    (process_next_batch_file batch_files outcomes st).is_trimming = false ∧
    (process_next_batch_file batch_files outcomes st).log_messages.getLast? =
      some "=== Batch trim completed! ===" := by
  suffices H : ∀ n (st : BatchState), batch_files.length - st.current_batch_index = n →
      (process_next_batch_file batch_files outcomes st).current_batch_index = 0 ∧
      (process_next_batch_file batch_files outcomes st).total_batch_count = 0 ∧
      (process_next_batch_file batch_files outcomes st).is_trimming = false ∧
      (process_next_batch_file batch_files outcomes st).log_messages.getLast? =
        some "=== Batch trim completed! ===" by
    exact H _ st rfl
  intro n
  induction n using Nat.strong_induction_on with
  | _ n ih =>
    intro st hn
    rw [process_next_batch_file]
    split
    · exact ⟨rfl, rfl, rfl, List.getLast?_concat _⟩
    · rename_i h
      split
      · exact ih (batch_files.length - (st.current_batch_index + 1)) (by omega) _ rfl
      · exact ih (batch_files.length - (st.current_batch_index + 1)) (by omega) _ rfl

/-- C2 counterexample: the end-of-batch report is the constant banner
`=== Batch trim completed! ===` — for the example given in the claim (three jobs,
exactly job 2 failing) the complete log is computed below and contains no
aggregate `{successCount, failureCount, cancelled}`; the final report of that
run is identical to the final report of a run in which every job succeeded,
so it cannot carry success/failure counts. -/
theorem batch_final_report_has_no_counts :
    (process_next_batch_file ["a.mp4", "b.mp4", "c.mp4"]
        [JobOutcome.completed, JobOutcome.failed "FFmpeg exited with code: 1",
          JobOutcome.completed]
        { current_batch_index := 0, total_batch_count := 3, is_trimming := true,
          log_messages := [] }).log_messages =
      ["Processing file 1/3: a.mp4", "✓ File 1 completed.",
       "Processing file 2/3: b.mp4", "✗ File 2 failed: FFmpeg exited with code: 1",
       "Processing file 3/3: c.mp4", "✓ File 3 completed.",
       "=== Batch trim completed! ==="] ∧
    (process_next_batch_file ["a.mp4", "b.mp4", "c.mp4"]
        [JobOutcome.completed, JobOutcome.failed "FFmpeg exited with code: 1",
          JobOutcome.completed]
        { current_batch_index := 0, total_batch_count := 3, is_trimming := true,
          log_messages := [] }).log_messages.getLast? =
      (process_next_batch_file ["a.mp4", "b.mp4", "c.mp4"]
        [JobOutcome.completed, JobOutcome.completed, JobOutcome.completed]
        { current_batch_index := 0, total_batch_count := 3, is_trimming := true,
          log_messages := [] }).log_messages.getLast? := by
  have run1 : process_next_batch_file ["a.mp4", "b.mp4", "c.mp4"]
      [JobOutcome.completed, JobOutcome.failed "FFmpeg exited with code: 1",
        JobOutcome.completed]
      { current_batch_index := 0, total_batch_count := 3, is_trimming := true,
        log_messages := [] } =
      { current_batch_index := 0, total_batch_count := 0, is_trimming := false,
        log_messages :=
          ["Processing file 1/3: a.mp4", "✓ File 1 completed.",
           "Processing file 2/3: b.mp4", "✗ File 2 failed: FFmpeg exited with code: 1",
           "Processing file 3/3: c.mp4", "✓ File 3 completed.",
           "=== Batch trim completed! ==="] } := by
    rw [process_next_batch_file, dif_neg (by decide)]
    show process_next_batch_file ["a.mp4", "b.mp4", "c.mp4"]
      [JobOutcome.completed, JobOutcome.failed "FFmpeg exited with code: 1",
        JobOutcome.completed]
      { current_batch_index := 1, total_batch_count := 3, is_trimming := true,
        log_messages := ["Processing file 1/3: a.mp4", "✓ File 1 completed."] } = _
    rw [process_next_batch_file, dif_neg (by decide)]
    show process_next_batch_file ["a.mp4", "b.mp4", "c.mp4"]
      [JobOutcome.completed, JobOutcome.failed "FFmpeg exited with code: 1",
        JobOutcome.completed]
      { current_batch_index := 2, total_batch_count := 3, is_trimming := true,
        log_messages :=
          ["Processing file 1/3: a.mp4", "✓ File 1 completed.",
           "Processing file 2/3: b.mp4",
           "✗ File 2 failed: FFmpeg exited with code: 1"] } = _
    rw [process_next_batch_file, dif_neg (by decide)]
    show process_next_batch_file ["a.mp4", "b.mp4", "c.mp4"]
      [JobOutcome.completed, JobOutcome.failed "FFmpeg exited with code: 1",
        JobOutcome.completed]
      { current_batch_index := 3, total_batch_count := 3, is_trimming := true,
        log_messages :=
          ["Processing file 1/3: a.mp4", "✓ File 1 completed.",
           "Processing file 2/3: b.mp4", "✗ File 2 failed: FFmpeg exited with code: 1",
           "Processing file 3/3: c.mp4", "✓ File 3 completed."] } = _
    rw [process_next_batch_file, dif_pos (by decide)]
    rfl
  have run2 : process_next_batch_file ["a.mp4", "b.mp4", "c.mp4"]
      [JobOutcome.completed, JobOutcome.completed, JobOutcome.completed]
      { current_batch_index := 0, total_batch_count := 3, is_trimming := true,
        log_messages := [] } =
      { current_batch_index := 0, total_batch_count := 0, is_trimming := false,
        log_messages :=
          ["Processing file 1/3: a.mp4", "✓ File 1 completed.",
           "Processing file 2/3: b.mp4", "✓ File 2 completed.",
           "Processing file 3/3: c.mp4", "✓ File 3 completed.",
           "=== Batch trim completed! ==="] } := by
    rw [process_next_batch_file, dif_neg (by decide)]
    show process_next_batch_file ["a.mp4", "b.mp4", "c.mp4"]
      [JobOutcome.completed, JobOutcome.completed, JobOutcome.completed]
      { current_batch_index := 1, total_batch_count := 3, is_trimming := true,
        log_messages := ["Processing file 1/3: a.mp4", "✓ File 1 completed."] } = _
    rw [process_next_batch_file, dif_neg (by decide)]
    show process_next_batch_file ["a.mp4", "b.mp4", "c.mp4"]
      [JobOutcome.completed, JobOutcome.completed, JobOutcome.completed]
      { current_batch_index := 2, total_batch_count := 3, is_trimming := true,
        log_messages :=
          ["Processing file 1/3: a.mp4", "✓ File 1 completed.",
           "Processing file 2/3: b.mp4", "✓ File 2 completed."] } = _
    rw [process_next_batch_file, dif_neg (by decide)]
    show process_next_batch_file ["a.mp4", "b.mp4", "c.mp4"]
      [JobOutcome.completed, JobOutcome.completed, JobOutcome.completed]
      { current_batch_index := 3, total_batch_count := 3, is_trimming := true,
        log_messages :=
          ["Processing file 1/3: a.mp4", "✓ File 1 completed.",
           "Processing file 2/3: b.mp4", "✓ File 2 completed.",
           "Processing file 3/3: c.mp4", "✓ File 3 completed."] } = _
    rw [process_next_batch_file, dif_pos (by decide)]
    rfl
  rw [run1, run2]
  exact ⟨rfl, rfl⟩

/-- C6: if job `i` of a batch ends `Failed`, the orchestrator records
`✗ File i+1 failed: reason` in the log and still goes on to start job `i + 1`
(its `Processing file i+2/total` line is logged) whenever one remains: a
failing job never aborts the remainder of the batch. -/
theorem batch_failure_isolation (batch_files : List String) (outcomes : List JobOutcome)
    (st : BatchState) (i : Nat) (r : String)
    (hst : st.current_batch_index ≤ i) (hi : i < batch_files.length)
    (hout : outcomes.getD i JobOutcome.completed = JobOutcome.failed r) :
    ("✗ File " ++ toString (i + 1) ++ " failed: " ++ r) ∈
      (process_next_batch_file batch_files outcomes st).log_messages ∧
    (i + 1 < batch_files.length →
      ("Processing file " ++ toString (i + 1 + 1) ++ "/" ++ toString st.total_batch_count ++
        ": " ++ batch_files.getD (i + 1) "") ∈
        (process_next_batch_file batch_files outcomes st).log_messages) := by
  suffices H : ∀ n (st : BatchState), batch_files.length - st.current_batch_index = n →
      st.current_batch_index ≤ i →
      ("✗ File " ++ toString (i + 1) ++ " failed: " ++ r) ∈
        (process_next_batch_file batch_files outcomes st).log_messages ∧
      (i + 1 < batch_files.length →
        ("Processing file " ++ toString (i + 1 + 1) ++ "/" ++ toString st.total_batch_count ++
          ": " ++ batch_files.getD (i + 1) "") ∈
          (process_next_batch_file batch_files outcomes st).log_messages) by
    exact H _ st rfl hst
  intro n
  induction n using Nat.strong_induction_on with
  | _ n ih =>
    intro st hn hle
    by_cases heq : st.current_batch_index = i
    · rw [process_next_batch_file, dif_neg (by omega)]
      split
      · rename_i hc
        rw [heq, hout] at hc
        exact absurd hc (by simp)
      · rename_i msg hc
        rw [heq, hout] at hc
        injection hc with hmsg
        subst hmsg
        rw [heq]
        constructor
        · apply pnbf_log_mono batch_files outcomes _ _ rfl
          exact List.mem_append_right _ (by simp)
        · intro hi1
          rw [process_next_batch_file]
          split
          · rename_i h2
            exfalso
            simp at h2
            omega
          · split
            · apply pnbf_log_mono batch_files outcomes _ _ rfl
              exact List.mem_append_left _ (List.mem_append_right _ (by simp))
            · apply pnbf_log_mono batch_files outcomes _ _ rfl
              exact List.mem_append_left _ (List.mem_append_right _ (by simp))
    · have hlt : st.current_batch_index < i := by omega
      rw [process_next_batch_file, dif_neg (by omega)]
      split
      · exact ih (batch_files.length - (st.current_batch_index + 1)) (by omega) _ rfl
          (show st.current_batch_index + 1 ≤ i by omega)
      · exact ih (batch_files.length - (st.current_batch_index + 1)) (by omega) _ rfl
          (show st.current_batch_index + 1 ≤ i by omega)

theorem batch_failure_isolation_witness :
    ("✗ File " ++ toString (1 + 1) ++ " failed: " ++ "FFmpeg exited with code: 1") ∈
      (process_next_batch_file ["a.mp4", "b.mp4", "c.mp4"]
        [JobOutcome.completed, JobOutcome.failed "FFmpeg exited with code: 1",
          JobOutcome.completed]
        { current_batch_index := 0, total_batch_count := 3, is_trimming := true,
          log_messages := [] }).log_messages ∧
    (1 + 1 < (["a.mp4", "b.mp4", "c.mp4"] : List String).length →
      ("Processing file " ++ toString (1 + 1 + 1) ++ "/" ++ toString (3 : Nat) ++
        ": " ++ (["a.mp4", "b.mp4", "c.mp4"] : List String).getD (1 + 1) "") ∈
        (process_next_batch_file ["a.mp4", "b.mp4", "c.mp4"]
          [JobOutcome.completed, JobOutcome.failed "FFmpeg exited with code: 1",
            JobOutcome.completed]
          { current_batch_index := 0, total_batch_count := 3, is_trimming := true,
            log_messages := [] }).log_messages) :=
  batch_failure_isolation ["a.mp4", "b.mp4", "c.mp4"]
    [JobOutcome.completed, JobOutcome.failed "FFmpeg exited with code: 1",
      JobOutcome.completed]
    { current_batch_index := 0, total_batch_count := 3, is_trimming := true,
      log_messages := [] }
    1 "FFmpeg exited with code: 1" (by decide) (by decide) (by decide)

end Trimora
